import Mathlib

/-! Shallow embedding of the two example programs of `bevy_tweening`
(`examples/user_input.rs` and `examples/squash_stretch_jump.rs`).

Both examples simulate a jumping player: a movement state machine
(Idle / Jumping / Falling), a gravity and velocity integrator, and a
tween selector that installs a scale animation into the animator each
time the movement state changes.  Floating point scalars (`f32`) are
modelled as exact rationals; every constant appearing in the sources
(1000.0, 1500.0, 0.7, ...) is exactly representable.  Bevy change
detection on the `MovementState` component is modelled by a `changed`
flag that is reset at the start of each tick and set by every write to
the component (Bevy flags a component as changed whenever it is mutably
dereferenced).  The number of `set_tweenable` calls performed during a
tick is recorded in an `installs` counter, also reset each tick.
-/

set_option autoImplicit false

namespace BevyTweening

/-- The `MovementState` component, common to both examples
(constructors in source order). -/
inductive MovementState where
  | Jumping
  | Falling
  | Idle
deriving DecidableEq, Repr

/-- The `EaseFunction` enumeration of the tweening plugin
(the thirty variants named in `string_to_ease_function`). -/
inductive EaseFunction where
  | QuadraticIn
  | QuadraticOut
  | QuadraticInOut
  | CubicIn
  | CubicOut
  | CubicInOut
  | QuarticIn
  | QuarticOut
  | QuarticInOut
  | QuinticIn
  | QuinticOut
  | QuinticInOut
  | SineIn
  | SineOut
  | SineInOut
  | CircularIn
  | CircularOut
  | CircularInOut
  | ExponentialIn
  | ExponentialOut
  | ExponentialInOut
  | ElasticIn
  | ElasticOut
  | ElasticInOut
  | BackIn
  | BackOut
  | BackInOut
  | BounceIn
  | BounceOut
  | BounceInOut
deriving DecidableEq, Repr

/-- `fn string_to_ease_function(string: &String) -> EaseFunction`
(identical in both example files): each of the thirty recognized names
maps to its variant, anything else to `CubicInOut`. -/
def string_to_ease_function (string : String) : EaseFunction :=
  match string with
  | "QuadraticIn" => .QuadraticIn
  | "QuadraticOut" => .QuadraticOut
  | "QuadraticInOut" => .QuadraticInOut
  | "CubicIn" => .CubicIn
  | "CubicOut" => .CubicOut
  | "CubicInOut" => .CubicInOut
  | "QuarticIn" => .QuarticIn
  | "QuarticOut" => .QuarticOut
  | "QuarticInOut" => .QuarticInOut
  | "QuinticIn" => .QuinticIn
  | "QuinticOut" => .QuinticOut
  | "QuinticInOut" => .QuinticInOut
  | "SineIn" => .SineIn
  | "SineOut" => .SineOut
  | "SineInOut" => .SineInOut
  | "CircularIn" => .CircularIn
  | "CircularOut" => .CircularOut
  | "CircularInOut" => .CircularInOut
  | "ExponentialIn" => .ExponentialIn
  | "ExponentialOut" => .ExponentialOut
  | "ExponentialInOut" => .ExponentialInOut
  | "ElasticIn" => .ElasticIn
  | "ElasticOut" => .ElasticOut
  | "ElasticInOut" => .ElasticInOut
  | "BackIn" => .BackIn
  | "BackOut" => .BackOut
  | "BackInOut" => .BackInOut
  | "BounceIn" => .BounceIn
  | "BounceOut" => .BounceOut
  | "BounceInOut" => .BounceInOut
  | _ => .CubicInOut

/-- The thirty ease names recognized by `string_to_ease_function`. -/
def recognizedEaseNames : List String :=
  ["QuadraticIn", "QuadraticOut", "QuadraticInOut",
   "CubicIn", "CubicOut", "CubicInOut",
   "QuarticIn", "QuarticOut", "QuarticInOut",
   "QuinticIn", "QuinticOut", "QuinticInOut",
   "SineIn", "SineOut", "SineInOut",
   "CircularIn", "CircularOut", "CircularInOut",
   "ExponentialIn", "ExponentialOut", "ExponentialInOut",
   "ElasticIn", "ElasticOut", "ElasticInOut",
   "BackIn", "BackOut", "BackInOut",
   "BounceIn", "BounceOut", "BounceInOut"]

/-- Bevy `Vec2` with exact rational coordinates. -/
structure Vec2 where
  x : ℚ
  y : ℚ
deriving DecidableEq, Repr

/-- Bevy `Vec3` with exact rational coordinates. -/
structure Vec3 where
  x : ℚ
  y : ℚ
  z : ℚ
deriving DecidableEq, Repr

/-- `TransformScaleLens { start, end }` of `bevy_tweening::lens`
(the `end` field is a reserved word in Lean and is called `ending`). -/
structure TransformScaleLens where
  start : Vec3
  ending : Vec3
deriving DecidableEq, Repr

/-- One tween leg: `Tween::new(ease_function, duration, lens)`.
The duration is kept in milliseconds (`Duration::from_millis`). -/
structure TweenLeg where
  ease : EaseFunction
  duration_ms : ℕ
  lens : TransformScaleLens
deriving DecidableEq, Repr

/-- An `AnimationRequest` handed to the animator: a sequence of legs
(a single `Tween`, or a chain built with `.then(...)`). -/
abbrev AnimationRequest := List TweenLeg

/-- `Tween::new(ease, Duration::from_millis(d), lens)`: a one-leg request. -/
def Tween.new (ease : EaseFunction) (duration_ms : ℕ)
    (lens : TransformScaleLens) : AnimationRequest :=
  [⟨ease, duration_ms, lens⟩]

/-- `a.then(b)`: sequential chaining of two requests (`then` is a reserved
word in Lean, hence the name `chain`). -/
def Tween.chain (a b : AnimationRequest) : AnimationRequest :=
  a ++ b

/-- The `Options` resource (identical in both example files). -/
structure Options where
  jump_duration : ℕ
  fall_duration : ℕ
  landing_duration : ℕ
  jump_ease : String
  fall_ease : String
  landing_ease : String
deriving DecidableEq, Repr

/-- `impl Default for Options`. -/
def Options.default : Options :=
  { jump_duration := 300
    fall_duration := 500
    landing_duration := 100
    jump_ease := "BackOut"
    fall_ease := "CubicIn"
    landing_ease := "CubicOut" }

/-! The `user_input.rs` example.

Systems, in the order they are added to the app: `take_input`,
`apply_gravity`, `move_player`, `tween_jump_and_fall`.  The player
entity carries `MovementState`, `Physics { velocity: Vec2 }`,
`Transform` (its translation), and an `Animator<Transform>`.
-/

namespace UserInput

/-- Per-entity state of the player in `user_input.rs`.  `changed` is the
Bevy change-detection flag of the `MovementState` component for the
current tick; `installs` counts `set_tweenable` calls this tick. -/
structure PlayerState where
  movement : MovementState
  velocity : Vec2
  translation : Vec3
  animator : AnimationRequest
  changed : Bool
  installs : ℕ
deriving DecidableEq, Repr

/-- `animator.set_tweenable(tween)`: replace the current tweenable. -/
def set_tweenable (st : PlayerState) (t : AnimationRequest) : PlayerState :=
  { st with animator := t, installs := st.installs + 1 }

/-- `fn take_input`: while `Idle`, a just-pressed space sets the state to
`Jumping` and the vertical velocity to `1_000.0`. -/
def take_input (space_just_pressed : Bool) (st : PlayerState) : PlayerState :=
  match st.movement with
  | .Idle =>
      if space_just_pressed then
        { st with movement := .Jumping
                  velocity := { st.velocity with y := 1000 }
                  changed := true }
      else st
  | _ => st

/-- `fn apply_gravity`: subtract `1_500.0 * dt` from the vertical velocity
while `Jumping` or `Falling`; then, if the (updated) vertical velocity is
negative and the state is not already `Falling`, switch to `Falling`. -/
def apply_gravity (dt : ℚ) (st : PlayerState) : PlayerState :=
  let st :=
    if st.movement = .Jumping ∨ st.movement = .Falling then
      { st with velocity := { st.velocity with y := st.velocity.y - 1500 * dt } }
    else st
  if st.velocity.y < 0 ∧ st.movement ≠ .Falling then
    { st with movement := .Falling, changed := true }
  else st

/-- `fn move_player`: advance the translation by `velocity * dt`; if the
new vertical position would go below the ground, clamp the vertical
position to the ground, zero the vertical velocity and set the state to
`Idle`. -/
def move_player (dt ground : ℚ) (st : PlayerState) : PlayerState :=
  let translation_change : Vec2 := ⟨st.velocity.x * dt, st.velocity.y * dt⟩
  if st.translation.y + translation_change.y < ground then
    { st with translation := { st.translation with y := ground }
              velocity := { st.velocity with y := 0 }
              movement := .Idle
              changed := true }
  else
    { st with translation :=
        ⟨st.translation.x + translation_change.x,
         st.translation.y + translation_change.y,
         st.translation.z⟩ }

/-- `fn tween_jump_and_fall`: runs under a `Changed<MovementState>`
filter, so it is a no-op unless the state component was written this
tick; otherwise it installs the per-state scale tween (a two-leg chain
for `Idle`). -/
def tween_jump_and_fall (options : Options) (st : PlayerState) : PlayerState :=
  if st.changed = false then st
  else
    let rest_scale : Vec3 := ⟨1, 1, 0⟩
    let jump_scale : Vec3 := ⟨9/10, 11/10, 0⟩
    let fall_scale : Vec3 := ⟨7/10, 13/10, 0⟩
    let landing_scale : Vec3 := ⟨12/10, 8/10, 0⟩
    match st.movement with
    | .Jumping =>
        set_tweenable st
          (Tween.new (string_to_ease_function options.jump_ease)
            options.jump_duration ⟨rest_scale, jump_scale⟩)
    | .Falling =>
        set_tweenable st
          (Tween.new (string_to_ease_function options.fall_ease)
            options.fall_duration ⟨jump_scale, fall_scale⟩)
    | .Idle =>
        set_tweenable st
          (Tween.chain
            (Tween.new (string_to_ease_function options.landing_ease)
              options.landing_duration ⟨fall_scale, landing_scale⟩)
            (Tween.new (string_to_ease_function options.landing_ease)
              options.landing_duration ⟨landing_scale, rest_scale⟩))

/-- One simulation tick: the four systems in insertion order, after
resetting the per-tick change-detection flag and install counter. -/
def tick (jump : Bool) (dt ground : ℚ) (options : Options)
    (st : PlayerState) : PlayerState :=
  tween_jump_and_fall options
    (move_player dt ground
      (apply_gravity dt
        (take_input jump { st with changed := false, installs := 0 })))

/-- The spawned player: `Idle`, zero velocity, resting on the ground
(`bottom + player_size.y / 2`), animator holding a `Dummy` tween. -/
def init (ground : ℚ) : PlayerState :=
  { movement := .Idle
    velocity := ⟨0, 0⟩
    translation := ⟨0, ground, 0⟩
    animator := []
    changed := false
    installs := 0 }

/-- Run the simulation from spawn over a list of per-tick jump inputs. -/
def run (dt ground : ℚ) (options : Options) (inputs : List Bool) : PlayerState :=
  inputs.foldl (fun st j => tick j dt ground options st) (init ground)

end UserInput

/-! The `squash_stretch_jump.rs` example.

Systems, in the order they are added to the app: `change_movement_state`,
`apply_gravity`, `apply_velocity`, `tween_player`.  Constants:
`JUMP_VELOCITY = 11 * 100`, `GRAVITY = 15 * 100`.
-/

namespace Squash

/-- `const PIXELS_PER_METER: f32 = 100.0`. -/
def PIXELS_PER_METER : ℚ := 100

/-- `const JUMP_VELOCITY: f32 = 11.0 * PIXELS_PER_METER`. -/
def JUMP_VELOCITY : ℚ := 11 * PIXELS_PER_METER

/-- `const GRAVITY: f32 = 15.0 * PIXELS_PER_METER`. -/
def GRAVITY : ℚ := 15 * PIXELS_PER_METER

/-- Per-entity state of the player in `squash_stretch_jump.rs`: the
`MovementState`, `Velocity(Vec2)` and `Transform` components plus the
animator, with the same per-tick bookkeeping as in `UserInput`. -/
structure PlayerState where
  movement : MovementState
  velocity : Vec2
  translation : Vec3
  animator : AnimationRequest
  changed : Bool
  installs : ℕ
deriving DecidableEq, Repr

/-- `animator.set_tweenable(tween)`: replace the current tweenable. -/
def set_tweenable (st : PlayerState) (t : AnimationRequest) : PlayerState :=
  { st with animator := t, installs := st.installs + 1 }

/-- `fn change_movement_state`: the whole state machine.  `Idle` plus a
just-pressed space launches the jump; `Jumping` with negative velocity
becomes `Falling`; `Falling` at or below the ground lands (velocity
zeroed, state `Idle`). -/
def change_movement_state (space_just_pressed : Bool) (ground : ℚ)
    (st : PlayerState) : PlayerState :=
  match st.movement with
  | .Idle =>
      if space_just_pressed then
        { st with velocity := { st.velocity with y := JUMP_VELOCITY }
                  movement := .Jumping
                  changed := true }
      else st
  | .Jumping =>
      if st.velocity.y < 0 then
        { st with movement := .Falling, changed := true }
      else st
  | .Falling =>
      if st.translation.y ≤ ground then
        { st with velocity := { st.velocity with y := 0 }
                  movement := .Idle
                  changed := true }
      else st

/-- `fn apply_gravity`: subtract `GRAVITY * dt` from the vertical
velocity unconditionally (in every state, including `Idle`). -/
def apply_gravity (dt : ℚ) (st : PlayerState) : PlayerState :=
  { st with velocity := { st.velocity with y := st.velocity.y - GRAVITY * dt } }

/-- `fn apply_velocity`: advance the translation by `velocity * dt`; if
the new vertical position would go below the ground, clamp the vertical
position to the ground (the velocity is left untouched). -/
def apply_velocity (dt ground : ℚ) (st : PlayerState) : PlayerState :=
  let translation_change : Vec2 := ⟨st.velocity.x * dt, st.velocity.y * dt⟩
  if st.translation.y + translation_change.y < ground then
    { st with translation := { st.translation with y := ground } }
  else
    { st with translation :=
        ⟨st.translation.x + translation_change.x,
         st.translation.y + translation_change.y,
         st.translation.z⟩ }

/-- `fn tween_player`: identical body to `tween_jump_and_fall` of
`user_input.rs`, under the same `Changed<MovementState>` filter. -/
def tween_player (options : Options) (st : PlayerState) : PlayerState :=
  if st.changed = false then st
  else
    let rest_scale : Vec3 := ⟨1, 1, 0⟩
    let jump_scale : Vec3 := ⟨9/10, 11/10, 0⟩
    let fall_scale : Vec3 := ⟨7/10, 13/10, 0⟩
    let landing_scale : Vec3 := ⟨12/10, 8/10, 0⟩
    match st.movement with
    | .Jumping =>
        set_tweenable st
          (Tween.new (string_to_ease_function options.jump_ease)
            options.jump_duration ⟨rest_scale, jump_scale⟩)
    | .Falling =>
        set_tweenable st
          (Tween.new (string_to_ease_function options.fall_ease)
            options.fall_duration ⟨jump_scale, fall_scale⟩)
    | .Idle =>
        set_tweenable st
          (Tween.chain
            (Tween.new (string_to_ease_function options.landing_ease)
              options.landing_duration ⟨fall_scale, landing_scale⟩)
            (Tween.new (string_to_ease_function options.landing_ease)
              options.landing_duration ⟨landing_scale, rest_scale⟩))

/-- One simulation tick: the four systems in insertion order, after
resetting the per-tick change-detection flag and install counter. -/
def tick (jump : Bool) (dt ground : ℚ) (options : Options)
    (st : PlayerState) : PlayerState :=
  tween_player options
    (apply_velocity dt ground
      (apply_gravity dt
        (change_movement_state jump ground
          { st with changed := false, installs := 0 })))

/-- The spawned player: `Idle`, zero velocity, resting on the ground. -/
def init (ground : ℚ) : PlayerState :=
  { movement := .Idle
    velocity := ⟨0, 0⟩
    translation := ⟨0, ground, 0⟩
    animator := []
    changed := false
    installs := 0 }

/-- Run the simulation from spawn over a list of per-tick jump inputs. -/
def run (dt ground : ℚ) (options : Options) (inputs : List Bool) : PlayerState :=
  inputs.foldl (fun st j => tick j dt ground options st) (init ground)

end Squash

/-! Invariants of the `user_input.rs` simulation. -/

namespace UserInput

/-- Reachability invariant of the `user_input.rs` player: an `Idle`
player has zero vertical velocity, the player never sinks below the
ground, and a `Jumping` player has nonnegative vertical velocity. -/
def Inv (ground : ℚ) (st : PlayerState) : Prop :=
  (st.movement = .Idle → st.velocity.y = 0) ∧
  ground ≤ st.translation.y ∧
  (st.movement = .Jumping → 0 ≤ st.velocity.y)

instance (ground : ℚ) (st : PlayerState) : Decidable (Inv ground st) := by
  unfold Inv; infer_instance

theorem Inv_init (ground : ℚ) : Inv ground (init ground) := by
  simp [Inv, init]

/-- The tween selector never touches the movement, velocity or
translation of the player. -/
theorem tween_fields (options : Options) (st : PlayerState) :
    (tween_jump_and_fall options st).movement = st.movement ∧
    (tween_jump_and_fall options st).velocity = st.velocity ∧
    (tween_jump_and_fall options st).translation = st.translation := by
  obtain ⟨mv, v, tr, an, ch, ins⟩ := st
  cases ch <;> cases mv <;> simp [tween_jump_and_fall, set_tweenable]

/-- Resetting the per-tick bookkeeping preserves the invariant. -/
theorem Inv_reset {ground : ℚ} {st : PlayerState} (h : Inv ground st) :
    Inv ground { st with changed := false, installs := 0 } := h

/-- `take_input` preserves the invariant. -/
theorem Inv_take_input (jump : Bool) {ground : ℚ} {st : PlayerState}
    (h : Inv ground st) : Inv ground (take_input jump st) := by
  obtain ⟨mv, ⟨vx, vy⟩, ⟨tx, ty, tz⟩, an, ch, ins⟩ := st
  obtain ⟨h1, h2, h3⟩ := h
  cases mv <;> cases jump <;> simp_all [Inv, take_input]

/-- `apply_gravity` preserves the invariant. -/
theorem Inv_apply_gravity (dt : ℚ) {ground : ℚ} {st : PlayerState}
    (h : Inv ground st) : Inv ground (apply_gravity dt st) := by
  obtain ⟨mv, ⟨vx, vy⟩, ⟨tx, ty, tz⟩, an, ch, ins⟩ := st
  obtain ⟨h1, h2, h3⟩ := h
  cases mv <;> simp_all [Inv, apply_gravity] <;> split_ifs <;> simp_all

/-- `move_player` preserves the invariant. -/
theorem Inv_move_player (dt : ℚ) {ground : ℚ} {st : PlayerState}
    (h : Inv ground st) : Inv ground (move_player dt ground st) := by
  obtain ⟨mv, ⟨vx, vy⟩, ⟨tx, ty, tz⟩, an, ch, ins⟩ := st
  obtain ⟨h1, h2, h3⟩ := h
  cases mv <;> simp_all [Inv, move_player] <;> split_ifs <;> simp_all

/-- `tween_jump_and_fall` preserves the invariant. -/
theorem Inv_tween (options : Options) {ground : ℚ} {st : PlayerState}
    (h : Inv ground st) : Inv ground (tween_jump_and_fall options st) := by
  obtain ⟨hmv, hv, ht⟩ := tween_fields options st
  exact ⟨fun h1 => by rw [hv]; exact h.1 (hmv ▸ h1),
         by rw [ht]; exact h.2.1,
         fun h1 => by rw [hv]; exact h.2.2 (hmv ▸ h1)⟩

/-- One tick preserves the reachability invariant. -/
theorem Inv_tick (jump : Bool) (dt ground : ℚ) (options : Options)
    (st : PlayerState) (h : Inv ground st) :
    Inv ground (tick jump dt ground options st) :=
  Inv_tween options
    (Inv_move_player dt
      (Inv_apply_gravity dt
        (Inv_take_input jump (Inv_reset h))))

/-- Every state reached by `run` satisfies the invariant. -/
theorem Inv_run (dt ground : ℚ) (options : Options) (inputs : List Bool) :
    Inv ground (run dt ground options inputs) := by
  suffices h : ∀ st, Inv ground st →
      Inv ground (inputs.foldl (fun st j => tick j dt ground options st) st) by
    exact h _ (Inv_init ground)
  induction inputs with
  | nil => exact fun st h => h
  | cons j rest ih => exact fun st h => ih _ (Inv_tick j dt ground options st h)

/-- A state write performed by `take_input` is exactly the `Idle` to
`Jumping` edge, triggered by the jump input. -/
theorem take_input_edge (jump : Bool) (st : PlayerState)
    (h : (take_input jump st).movement ≠ st.movement) :
    st.movement = .Idle ∧ (take_input jump st).movement = .Jumping ∧
      jump = true := by
  obtain ⟨mv, v, tr, an, ch, ins⟩ := st
  cases mv <;> cases jump <;> simp_all [take_input]

/-- A state write performed by `apply_gravity` is exactly the `Jumping`
to `Falling` edge, triggered by the velocity crossing below zero (given
that an `Idle` player has zero velocity). -/
theorem apply_gravity_edge (dt : ℚ) (st : PlayerState)
    (h1 : st.movement = .Idle → st.velocity.y = 0)
    (h : (apply_gravity dt st).movement ≠ st.movement) :
    st.movement = .Jumping ∧ (apply_gravity dt st).movement = .Falling ∧
      (apply_gravity dt st).velocity.y < 0 := by
  obtain ⟨mv, ⟨vx, vy⟩, tr, an, ch, ins⟩ := st
  cases mv <;> simp_all [apply_gravity] <;> split_ifs at * <;> simp_all

/-- A state write performed by `move_player` is exactly the `Falling` to
`Idle` edge, triggered by the position reaching the ground (given the
invariant at entry to the system and a nonnegative time step). -/
theorem move_player_edge (dt ground : ℚ) (st : PlayerState) (hdt : 0 ≤ dt)
    (h1 : st.movement = .Idle → st.velocity.y = 0)
    (h2 : ground ≤ st.translation.y)
    (h3 : st.movement = .Jumping → 0 ≤ st.velocity.y)
    (h : (move_player dt ground st).movement ≠ st.movement) :
    st.movement = .Falling ∧ (move_player dt ground st).movement = .Idle ∧
      (move_player dt ground st).translation.y = ground := by
  obtain ⟨mv, ⟨vx, vy⟩, ⟨tx, ty, tz⟩, an, ch, ins⟩ := st
  cases mv <;> simp_all [move_player] <;> split_ifs at * <;> simp_all
  have hv : 0 ≤ vy * dt := mul_nonneg h3 hdt
  linarith

end UserInput

namespace Squash

/-- The tween selector never touches the movement, velocity or
translation of the player. -/
theorem tween_player_fields (options : Options) (st : PlayerState) :
    (tween_player options st).movement = st.movement ∧
    (tween_player options st).velocity = st.velocity ∧
    (tween_player options st).translation = st.translation := by
  obtain ⟨mv, v, tr, an, ch, ins⟩ := st
  cases ch <;> cases mv <;> simp [tween_player, set_tweenable]

/-- `apply_gravity` never touches the movement state. -/
theorem apply_gravity_movement (dt : ℚ) (st : PlayerState) :
    (apply_gravity dt st).movement = st.movement := rfl

/-- `apply_velocity` never touches the movement state or the velocity. -/
theorem apply_velocity_fields (dt ground : ℚ) (st : PlayerState) :
    (apply_velocity dt ground st).movement = st.movement ∧
    (apply_velocity dt ground st).velocity = st.velocity := by
  obtain ⟨mv, v, tr, an, ch, ins⟩ := st
  simp [apply_velocity]
  split_ifs <;> simp

/-- A state write performed by `change_movement_state` is exactly one of
the three edges of the cycle, each with its triggering condition. -/
theorem change_movement_state_edge (jump : Bool) (ground : ℚ)
    (st : PlayerState)
    (h : (change_movement_state jump ground st).movement ≠ st.movement) :
    (st.movement = .Idle ∧
      (change_movement_state jump ground st).movement = .Jumping ∧
      jump = true) ∨
    (st.movement = .Jumping ∧
      (change_movement_state jump ground st).movement = .Falling ∧
      st.velocity.y < 0) ∨
    (st.movement = .Falling ∧
      (change_movement_state jump ground st).movement = .Idle ∧
      st.translation.y ≤ ground) := by
  obtain ⟨mv, ⟨vx, vy⟩, ⟨tx, ty, tz⟩, an, ch, ins⟩ := st
  cases mv <;> cases jump <;> simp_all [change_movement_state] <;>
    split_ifs at * <;> simp_all

end Squash

namespace UserInput

/-- The per-tick transition discipline of `user_input.rs`: each of the
three mutating systems either leaves the movement state unchanged or
moves it along its cycle edge under the stated condition, and the tween
selector never moves it. -/
def CycleStep (jump : Bool) (dt ground : ℚ) (options : Options)
    (st : PlayerState) : Prop :=
  let s0 := { st with changed := false, installs := 0 }
  let s1 := take_input jump s0
  let s2 := apply_gravity dt s1
  let s3 := move_player dt ground s2
  (s1.movement ≠ s0.movement →
    s0.movement = .Idle ∧ s1.movement = .Jumping ∧ jump = true) ∧
  (s2.movement ≠ s1.movement →
    s1.movement = .Jumping ∧ s2.movement = .Falling ∧ s2.velocity.y < 0) ∧
  (s3.movement ≠ s2.movement →
    s2.movement = .Falling ∧ s3.movement = .Idle ∧
      s3.translation.y = ground) ∧
  (tick jump dt ground options st).movement = s3.movement

/-- Any state satisfying the invariant steps along the cycle. -/
theorem cycleStep_of_Inv (jump : Bool) (dt ground : ℚ) (options : Options)
    (st : PlayerState) (hdt : 0 ≤ dt) (h : Inv ground st) :
    CycleStep jump dt ground options st := by
  have h0 : Inv ground { st with changed := false, installs := 0 } :=
    Inv_reset h
  have h1 := Inv_take_input jump h0
  have h2 := Inv_apply_gravity dt h1
  refine ⟨take_input_edge jump _, apply_gravity_edge dt _ h1.1,
    move_player_edge dt ground _ hdt h2.1 h2.2.1 h2.2.2,
    (tween_fields options _).1⟩

end UserInput

namespace Squash

/-- The per-tick transition discipline of `squash_stretch_jump.rs`: the
single mutating system moves the state only along the three cycle edges,
each under its condition, and no other system moves it. -/
def CycleStep (jump : Bool) (dt ground : ℚ) (options : Options)
    (st : PlayerState) : Prop :=
  let s0 := { st with changed := false, installs := 0 }
  let s1 := change_movement_state jump ground s0
  (s1.movement ≠ s0.movement →
    (s0.movement = .Idle ∧ s1.movement = .Jumping ∧ jump = true) ∨
    (s0.movement = .Jumping ∧ s1.movement = .Falling ∧
      s0.velocity.y < 0) ∨
    (s0.movement = .Falling ∧ s1.movement = .Idle ∧
      s0.translation.y ≤ ground)) ∧
  (tick jump dt ground options st).movement = s1.movement

/-- Every state steps along the cycle (no invariant needed: the state
machine of this example is a single system). -/
theorem cycleStep_all (jump : Bool) (dt ground : ℚ) (options : Options)
    (st : PlayerState) : CycleStep jump dt ground options st := by
  refine ⟨change_movement_state_edge jump ground _, ?_⟩
  simp only [tick]
  rw [(tween_player_fields options _).1, (apply_velocity_fields dt ground _).1,
    apply_gravity_movement]

end Squash

/-- C1: for every sequence of tick inputs from the initial `Idle` state,
the movement state only ever holds one of the three values, and every
state change performed during the next tick is one of the three cycle
edges with its triggering condition (jump input, velocity crossing below
zero, position reaching the ground), in both example programs. -/
theorem C1_state_cycle :
    (∀ dt ground : ℚ, ∀ options inputs jump, 0 ≤ dt →
      ((UserInput.run dt ground options inputs).movement = .Idle ∨
       (UserInput.run dt ground options inputs).movement = .Jumping ∨
       (UserInput.run dt ground options inputs).movement = .Falling) ∧
      UserInput.CycleStep jump dt ground options
        (UserInput.run dt ground options inputs)) ∧
    (∀ dt ground : ℚ, ∀ options inputs jump,
      ((Squash.run dt ground options inputs).movement = .Idle ∨
       (Squash.run dt ground options inputs).movement = .Jumping ∨
       (Squash.run dt ground options inputs).movement = .Falling) ∧
      Squash.CycleStep jump dt ground options
        (Squash.run dt ground options inputs)) := by
  constructor
  · intro dt ground options inputs jump hdt
    refine ⟨?_, UserInput.cycleStep_of_Inv jump dt ground options _ hdt
      (UserInput.Inv_run dt ground options inputs)⟩
    cases h : (UserInput.run dt ground options inputs).movement <;> simp
  · intro dt ground options inputs jump
    refine ⟨?_, Squash.cycleStep_all jump dt ground options _⟩
    cases h : (Squash.run dt ground options inputs).movement <;> simp

/-- Witness for C1 at a concrete instance. -/
theorem C1_state_cycle_witness :
    0 ≤ (16/1000 : ℚ) ∧
    (((UserInput.run (16/1000) 0 Options.default [true]).movement = .Idle ∨
      (UserInput.run (16/1000) 0 Options.default [true]).movement =
        .Jumping ∨
      (UserInput.run (16/1000) 0 Options.default [true]).movement =
        .Falling) ∧
     UserInput.CycleStep true (16/1000) 0 Options.default
       (UserInput.run (16/1000) 0 Options.default [true])) :=
  ⟨by norm_num,
   C1_state_cycle.1 (16/1000) 0 Options.default [true] true (by norm_num)⟩

/-- C10: the animation-selection step mutates only the animator: for
every tick state and every movement state value, running the tween
selector of either example leaves the movement state, the velocity and
the translation unchanged, whether or not a state change occurred. -/
theorem C10_tween_mutates_only_animator :
    ∀ options : Options,
      (∀ st : UserInput.PlayerState,
        (UserInput.tween_jump_and_fall options st).movement = st.movement ∧
        (UserInput.tween_jump_and_fall options st).velocity = st.velocity ∧
        (UserInput.tween_jump_and_fall options st).translation =
          st.translation) ∧
      (∀ st : Squash.PlayerState,
        (Squash.tween_player options st).movement = st.movement ∧
        (Squash.tween_player options st).velocity = st.velocity ∧
        (Squash.tween_player options st).translation = st.translation) :=
  fun options =>
    ⟨fun st => UserInput.tween_fields options st,
     fun st => Squash.tween_player_fields options st⟩

/-- C5: from `Idle` with zero vertical velocity, a jump input makes the
state-machine system set the state to `Jumping` and the vertical
velocity to exactly the jump speed (1000 in `user_input.rs`,
`JUMP_VELOCITY` = 1100 in `squash_stretch_jump.rs`), before the
integrator consumes it that tick. -/
theorem C5_jump_launch :
    (∀ st : UserInput.PlayerState, st.movement = .Idle →
      st.velocity.y = 0 →
      (UserInput.take_input true st).movement = .Jumping ∧
      (UserInput.take_input true st).velocity.y = 1000) ∧
    (∀ ground : ℚ, ∀ st : Squash.PlayerState, st.movement = .Idle →
      st.velocity.y = 0 →
      (Squash.change_movement_state true ground st).movement = .Jumping ∧
      (Squash.change_movement_state true ground st).velocity.y =
        Squash.JUMP_VELOCITY) := by
  constructor
  · intro st h hv
    obtain ⟨mv, ⟨vx, vy⟩, tr, an, ch, ins⟩ := st
    subst h
    simp [UserInput.take_input]
  · intro ground st h hv
    obtain ⟨mv, ⟨vx, vy⟩, tr, an, ch, ins⟩ := st
    subst h
    simp [Squash.change_movement_state]

/-- Witness for C5 at the spawn states. -/
theorem C5_jump_launch_witness :
    ((UserInput.init 0).movement = .Idle ∧ (UserInput.init 0).velocity.y = 0 ∧
      (UserInput.take_input true (UserInput.init 0)).movement = .Jumping ∧
      (UserInput.take_input true (UserInput.init 0)).velocity.y = 1000) ∧
    ((Squash.init 0).movement = .Idle ∧ (Squash.init 0).velocity.y = 0 ∧
      (Squash.change_movement_state true 0 (Squash.init 0)).movement =
        .Jumping ∧
      (Squash.change_movement_state true 0 (Squash.init 0)).velocity.y =
        Squash.JUMP_VELOCITY) :=
  ⟨⟨rfl, rfl, (C5_jump_launch.1 (UserInput.init 0) rfl rfl).1,
    (C5_jump_launch.1 (UserInput.init 0) rfl rfl).2⟩,
   ⟨rfl, rfl, (C5_jump_launch.2 0 (Squash.init 0) rfl rfl).1,
    (C5_jump_launch.2 0 (Squash.init 0) rfl rfl).2⟩⟩

/-- C7: when the tween selector fires with the state `Idle` (landing),
the installed request is a chain of exactly two legs whose first leg
starts at the fall shape (0.7, 1.3) and whose second leg ends at the
rest shape (1, 1), for every configured landing duration and ease. -/
theorem C7_landing_chain :
    ∀ options : Options,
      (∀ st : UserInput.PlayerState, st.changed = true →
        st.movement = .Idle →
        (UserInput.tween_jump_and_fall options st).animator.length = 2 ∧
        ((UserInput.tween_jump_and_fall options st).animator.head?.map
          fun l => l.lens.start) = some ⟨7/10, 13/10, 0⟩ ∧
        ((UserInput.tween_jump_and_fall options st).animator.getLast?.map
          fun l => l.lens.ending) = some ⟨1, 1, 0⟩) ∧
      (∀ st : Squash.PlayerState, st.changed = true →
        st.movement = .Idle →
        (Squash.tween_player options st).animator.length = 2 ∧
        ((Squash.tween_player options st).animator.head?.map
          fun l => l.lens.start) = some ⟨7/10, 13/10, 0⟩ ∧
        ((Squash.tween_player options st).animator.getLast?.map
          fun l => l.lens.ending) = some ⟨1, 1, 0⟩) := by
  intro options
  constructor
  · intro st hc hm
    obtain ⟨mv, v, tr, an, ch, ins⟩ := st
    subst hc; subst hm
    simp [UserInput.tween_jump_and_fall, UserInput.set_tweenable,
      Tween.chain, Tween.new]
  · intro st hc hm
    obtain ⟨mv, v, tr, an, ch, ins⟩ := st
    subst hc; subst hm
    simp [Squash.tween_player, Squash.set_tweenable, Tween.chain, Tween.new]

/-- Witness for C7 at a concrete landing-tick state. -/
theorem C7_landing_chain_witness :
    ((⟨.Idle, ⟨0, 0⟩, ⟨0, 0, 0⟩, [], true, 0⟩ :
        UserInput.PlayerState).changed = true ∧
      (UserInput.tween_jump_and_fall Options.default
        ⟨.Idle, ⟨0, 0⟩, ⟨0, 0, 0⟩, [], true, 0⟩).animator.length = 2) ∧
    ((⟨.Idle, ⟨0, 0⟩, ⟨0, 0, 0⟩, [], true, 0⟩ :
        Squash.PlayerState).changed = true ∧
      (Squash.tween_player Options.default
        ⟨.Idle, ⟨0, 0⟩, ⟨0, 0, 0⟩, [], true, 0⟩).animator.length = 2) :=
  ⟨⟨rfl, ((C7_landing_chain Options.default).1
      ⟨.Idle, ⟨0, 0⟩, ⟨0, 0, 0⟩, [], true, 0⟩ rfl rfl).1⟩,
   ⟨rfl, ((C7_landing_chain Options.default).2
      ⟨.Idle, ⟨0, 0⟩, ⟨0, 0, 0⟩, [], true, 0⟩ rfl rfl).1⟩⟩

/-- The intended mapping of the thirty recognized ease names to their
same-named `EaseFunction` variants. -/
def easeTable : List (String × EaseFunction) :=
  [("QuadraticIn", .QuadraticIn), ("QuadraticOut", .QuadraticOut),
   ("QuadraticInOut", .QuadraticInOut),
   ("CubicIn", .CubicIn), ("CubicOut", .CubicOut),
   ("CubicInOut", .CubicInOut),
   ("QuarticIn", .QuarticIn), ("QuarticOut", .QuarticOut),
   ("QuarticInOut", .QuarticInOut),
   ("QuinticIn", .QuinticIn), ("QuinticOut", .QuinticOut),
   ("QuinticInOut", .QuinticInOut),
   ("SineIn", .SineIn), ("SineOut", .SineOut), ("SineInOut", .SineInOut),
   ("CircularIn", .CircularIn), ("CircularOut", .CircularOut),
   ("CircularInOut", .CircularInOut),
   ("ExponentialIn", .ExponentialIn), ("ExponentialOut", .ExponentialOut),
   ("ExponentialInOut", .ExponentialInOut),
   ("ElasticIn", .ElasticIn), ("ElasticOut", .ElasticOut),
   ("ElasticInOut", .ElasticInOut),
   ("BackIn", .BackIn), ("BackOut", .BackOut), ("BackInOut", .BackInOut),
   ("BounceIn", .BounceIn), ("BounceOut", .BounceOut),
   ("BounceInOut", .BounceInOut)]

/-- C8: the ease-name resolution is total: each of the thirty recognized
names maps to its same-named variant, and every other string resolves to
`CubicInOut`. -/
theorem C8_ease_resolution :
    (∀ p ∈ easeTable, string_to_ease_function p.1 = p.2) ∧
    ∀ s : String, s ∉ recognizedEaseNames →
      string_to_ease_function s = .CubicInOut := by
  constructor
  · decide
  · intro s hs
    simp only [recognizedEaseNames, List.mem_cons, List.not_mem_nil,
      or_false, not_or] at hs
    unfold string_to_ease_function
    split
    all_goals first | rfl | simp_all

/-- Witness for C8: a recognized name and an unrecognized one. -/
theorem C8_ease_resolution_witness :
    (("BounceInOut", EaseFunction.BounceInOut) ∈ easeTable ∧
      string_to_ease_function "BounceInOut" = .BounceInOut) ∧
    ("garbage" ∉ recognizedEaseNames ∧
      string_to_ease_function "garbage" = .CubicInOut) :=
  ⟨⟨by decide, C8_ease_resolution.1 ("BounceInOut", .BounceInOut)
      (by decide)⟩,
   ⟨by decide, C8_ease_resolution.2 "garbage" (by decide)⟩⟩

/-- In `squash_stretch_jump.rs`, a tick installs exactly one animation
request when the movement state changes across the tick and none
otherwise, for every starting state. -/
theorem Squash.install_count_all (jump : Bool) (dt ground : ℚ) (options : Options)
    (st : Squash.PlayerState) :
    (Squash.tick jump dt ground options st).installs =
      if (Squash.tick jump dt ground options st).movement = st.movement
      then 0 else 1 := by
  obtain ⟨mv, ⟨vx, vy⟩, ⟨tx, ty, tz⟩, an, ch, ins⟩ := st
  cases mv <;> cases jump <;>
    simp [Squash.tick, Squash.change_movement_state, Squash.apply_gravity,
      Squash.apply_velocity, Squash.tween_player, Squash.set_tweenable] <;>
    split_ifs <;> simp_all

/-- In `user_input.rs`, under the reachability invariant and with a time
step small enough that a jump does not complete in a single tick
(`1500 * dt < 1000`), a tick installs exactly one animation request when
the movement state changes across the tick and none otherwise. -/
theorem UserInput.install_count_inv (jump : Bool) (dt ground : ℚ)
    (options : Options) (st : UserInput.PlayerState) (hdt : 0 ≤ dt)
    (hsmall : 1500 * dt < 1000) (h : UserInput.Inv ground st) :
    (UserInput.tick jump dt ground options st).installs =
      if (UserInput.tick jump dt ground options st).movement = st.movement
      then 0 else 1 := by
  obtain ⟨mv, ⟨vx, vy⟩, ⟨tx, ty, tz⟩, an, ch, ins⟩ := st
  obtain ⟨h1, h2, h3⟩ := h
  simp only at h1 h2 h3
  cases mv <;> cases jump <;>
    simp [UserInput.tick, UserInput.take_input, UserInput.apply_gravity,
      UserInput.move_player, UserInput.tween_jump_and_fall,
      UserInput.set_tweenable] <;>
    split_ifs <;> (try simp_all) <;> (try linarith)
  have hmul : 0 ≤ (1000 - 1500 * dt) * dt :=
    mul_nonneg (by linarith) hdt
  linarith

/-- C2, counterexample: with a "tick" of one second (gravity consumes the
whole jump speed at once), the first tick after a jump input from spawn
runs the full cycle Idle, Jumping, Falling, Idle inside one tick: the
movement state at the tick boundary is unchanged, yet the selector
(driven by Bevy change detection, which fires on any write) installs one
animation request. -/
theorem C2_install_counterexample :
    (UserInput.tick true 1 0 Options.default (UserInput.init 0)).movement =
      (UserInput.init 0).movement ∧
    (UserInput.tick true 1 0 Options.default (UserInput.init 0)).installs =
      1 := by
  constructor <;>
    simp +decide [UserInput.tick, UserInput.take_input,
      UserInput.apply_gravity, UserInput.move_player,
      UserInput.tween_jump_and_fall, UserInput.set_tweenable,
      UserInput.init]

/-- C2, amended: the selector installs exactly one request on a tick
whose boundary movement state changed and zero on a tick whose boundary
movement state is unchanged; unconditionally for every state in
`squash_stretch_jump.rs`, and for every reachable state in
`user_input.rs` provided the time step satisfies `1500 * dt < 1000`
(otherwise a single tick can run the whole cycle back to `Idle`,
installing one request with an unchanged boundary state, as in the
counterexample). -/
theorem C2_install_discipline :
    (∀ jump : Bool, ∀ dt ground : ℚ, ∀ options : Options,
      ∀ st : Squash.PlayerState,
      (Squash.tick jump dt ground options st).installs =
        if (Squash.tick jump dt ground options st).movement = st.movement
        then 0 else 1) ∧
    (∀ jump : Bool, ∀ dt ground : ℚ, ∀ options : Options, ∀ inputs,
      0 ≤ dt → 1500 * dt < 1000 →
      (UserInput.tick jump dt ground options
        (UserInput.run dt ground options inputs)).installs =
        if (UserInput.tick jump dt ground options
              (UserInput.run dt ground options inputs)).movement =
            (UserInput.run dt ground options inputs).movement
        then 0 else 1) :=
  ⟨fun jump dt ground options st =>
    Squash.install_count_all jump dt ground options st,
   fun jump dt ground options inputs hdt hsmall =>
    UserInput.install_count_inv jump dt ground options _ hdt hsmall
      (UserInput.Inv_run dt ground options inputs)⟩

/-- Witness for C2 (amended) at a concrete instance. -/
theorem C2_install_discipline_witness :
    0 ≤ (16/1000 : ℚ) ∧ 1500 * (16/1000 : ℚ) < 1000 ∧
    (UserInput.tick true (16/1000) 0 Options.default
      (UserInput.run (16/1000) 0 Options.default [])).installs =
      (if (UserInput.tick true (16/1000) 0 Options.default
            (UserInput.run (16/1000) 0 Options.default [])).movement =
          (UserInput.run (16/1000) 0 Options.default []).movement
       then 0 else 1) :=
  ⟨by norm_num, by norm_num,
   C2_install_discipline.2 true (16/1000) 0 Options.default []
     (by norm_num) (by norm_num)⟩

/-- One input-free tick of `user_input.rs` from a `Jumping` state whose
decremented velocity is still nonnegative: the player stays `Jumping`,
the velocity decreases by `1500 * dt` and the position advances by the
new velocity times `dt`. -/
theorem UserInput.jumping_coast_tick (dt ground : ℚ) (options : Options)
    (st : UserInput.PlayerState) (hdt : 0 ≤ dt)
    (hmv : st.movement = .Jumping) (hg : ground ≤ st.translation.y)
    (hv : 0 ≤ st.velocity.y - 1500 * dt) :
    (UserInput.tick false dt ground options st).movement = .Jumping ∧
    (UserInput.tick false dt ground options st).velocity.y =
      st.velocity.y - 1500 * dt ∧
    (UserInput.tick false dt ground options st).translation.y =
      st.translation.y + (st.velocity.y - 1500 * dt) * dt := by
  obtain ⟨mv, ⟨vx, vy⟩, ⟨tx, ty, tz⟩, an, ch, ins⟩ := st
  simp only at hmv hg hv
  subst hmv
  have hnfall : ¬(vy - 1500 * dt < 0) := not_lt.mpr hv
  have hnclamp : ¬(ty + (vy - 1500 * dt) * dt < ground) :=
    not_lt.mpr (by nlinarith [mul_nonneg hv hdt])
  simp [UserInput.tick, UserInput.take_input, UserInput.apply_gravity,
    UserInput.move_player, UserInput.tween_jump_and_fall, hnfall, hnclamp]

/-- One input-free tick of `user_input.rs` from a `Jumping` state whose
decremented velocity has gone negative and which stays above the ground:
the player switches to `Falling` within that tick. -/
theorem UserInput.tick_cross_step (dt ground : ℚ) (options : Options)
    (st : UserInput.PlayerState) (hmv : st.movement = .Jumping)
    (hneg : st.velocity.y - 1500 * dt < 0)
    (hnc : ground ≤ st.translation.y + (st.velocity.y - 1500 * dt) * dt) :
    (UserInput.tick false dt ground options st).movement = .Falling ∧
    (UserInput.tick false dt ground options st).velocity.y =
      st.velocity.y - 1500 * dt := by
  obtain ⟨mv, ⟨vx, vy⟩, ⟨tx, ty, tz⟩, an, ch, ins⟩ := st
  simp only at hmv hneg hnc
  subst hmv
  have hnclamp : ¬(ty + (vy - 1500 * dt) * dt < ground) := not_lt.mpr hnc
  simp [UserInput.tick, UserInput.take_input, UserInput.apply_gravity,
    UserInput.move_player, UserInput.tween_jump_and_fall,
    UserInput.set_tweenable, hneg, hnclamp]

/-- Coasting upward in `user_input.rs`: starting from a `Jumping` state
above the ground, as long as the velocity decremented `n` times is still
nonnegative the player remains `Jumping`, with closed-form velocity and
position. -/
theorem UserInput.jumping_coast_run (dt ground : ℚ) (options : Options)
    (st : UserInput.PlayerState) (hdt : 0 ≤ dt)
    (hmv : st.movement = .Jumping) (hg : ground ≤ st.translation.y) :
    ∀ n : ℕ, 0 ≤ st.velocity.y - 1500 * dt * n →
      ((UserInput.tick false dt ground options)^[n] st).movement =
        .Jumping ∧
      ((UserInput.tick false dt ground options)^[n] st).velocity.y =
        st.velocity.y - 1500 * dt * n ∧
      ((UserInput.tick false dt ground options)^[n] st).translation.y =
        st.translation.y +
          ((n : ℚ) * st.velocity.y -
            1500 * dt * ((n : ℚ) * ((n : ℚ) + 1) / 2)) * dt ∧
      ground ≤
        ((UserInput.tick false dt ground options)^[n] st).translation.y := by
  intro n
  induction n with
  | zero =>
      intro h
      simp only [Function.iterate_zero_apply]
      exact ⟨hmv, by push_cast; ring, by push_cast; ring, hg⟩
  | succ n ih =>
      intro h
      have hstep : (0:ℚ) ≤ 1500 * dt := by linarith
      have hn : 0 ≤ st.velocity.y - 1500 * dt * n := by
        push_cast at h ⊢
        nlinarith
      obtain ⟨ih1, ih2, ih3, ih4⟩ := ih hn
      have hv : 0 ≤ ((UserInput.tick false dt ground options)^[n]
          st).velocity.y - 1500 * dt := by
        rw [ih2]
        push_cast at h ⊢
        nlinarith
      obtain ⟨s1, s2, s3⟩ := UserInput.jumping_coast_tick dt ground options _
        hdt ih1 ih4 hv
      rw [Function.iterate_succ_apply']
      refine ⟨s1, ?_, ?_, ?_⟩
      · rw [s2, ih2]
        push_cast
        ring
      · rw [s3, ih3, ih2]
        push_cast
        ring
      · rw [s3]
        have : 0 ≤ (((UserInput.tick false dt ground options)^[n]
            st).velocity.y - 1500 * dt) * dt :=
          mul_nonneg hv hdt
        linarith

/-- One input-free tick of `squash_stretch_jump.rs` from a `Jumping`
state with nonnegative velocity: the player stays `Jumping` (the state
machine reads the velocity before gravity) and the velocity decreases by
`GRAVITY * dt`. -/
theorem Squash.jumping_hold_tick (dt ground : ℚ) (options : Options)
    (st : Squash.PlayerState) (hmv : st.movement = .Jumping)
    (hv : 0 ≤ st.velocity.y) :
    (Squash.tick false dt ground options st).movement = .Jumping ∧
    (Squash.tick false dt ground options st).velocity.y =
      st.velocity.y - Squash.GRAVITY * dt := by
  obtain ⟨mv, ⟨vx, vy⟩, ⟨tx, ty, tz⟩, an, ch, ins⟩ := st
  simp only at hmv hv
  subst hmv
  have hnfall : ¬(vy < 0) := not_lt.mpr hv
  constructor <;>
    simp [Squash.tick, Squash.change_movement_state, Squash.apply_gravity,
      Squash.apply_velocity, Squash.tween_player, hnfall] <;>
    split_ifs <;> simp_all

/-- One input-free tick of `squash_stretch_jump.rs` from a `Jumping`
state with negative velocity: the state machine finally reacts and the
player becomes `Falling`. -/
theorem Squash.tick_fall_step (dt ground : ℚ) (options : Options)
    (st : Squash.PlayerState) (hmv : st.movement = .Jumping)
    (hv : st.velocity.y < 0) :
    (Squash.tick false dt ground options st).movement = .Falling := by
  obtain ⟨mv, ⟨vx, vy⟩, ⟨tx, ty, tz⟩, an, ch, ins⟩ := st
  simp only at hmv hv
  subst hmv
  simp [Squash.tick, Squash.change_movement_state, Squash.apply_gravity,
    Squash.apply_velocity, Squash.tween_player, Squash.set_tweenable, hv]
  split_ifs <;> simp

/-- Coasting upward in `squash_stretch_jump.rs`: from a `Jumping` state,
as long as the velocity decremented `n` times is still nonnegative the
player remains `Jumping` for `n + 1` ticks, because the state machine
always reads the previous tick's velocity. -/
theorem Squash.jumping_hold_run (dt ground : ℚ) (options : Options)
    (st : Squash.PlayerState) (hdt : 0 ≤ dt)
    (hmv : st.movement = .Jumping) :
    ∀ n : ℕ, 0 ≤ st.velocity.y - Squash.GRAVITY * dt * n →
      ((Squash.tick false dt ground options)^[n+1] st).movement =
        .Jumping ∧
      ((Squash.tick false dt ground options)^[n+1] st).velocity.y =
        st.velocity.y - Squash.GRAVITY * dt * ((n : ℚ) + 1) := by
  have hG : (0:ℚ) ≤ Squash.GRAVITY :=
    by norm_num [Squash.GRAVITY, Squash.PIXELS_PER_METER]
  have hGdt : (0:ℚ) ≤ Squash.GRAVITY * dt := mul_nonneg hG hdt
  intro n
  induction n with
  | zero =>
      intro h
      have h0 : 0 ≤ st.velocity.y := by simpa using h
      obtain ⟨s1, s2⟩ := Squash.jumping_hold_tick dt ground options st hmv h0
      rw [Function.iterate_one]
      exact ⟨s1, by rw [s2]; push_cast; ring⟩
  | succ n ih =>
      intro h
      have hn : 0 ≤ st.velocity.y - Squash.GRAVITY * dt * n := by
        push_cast at h ⊢
        linarith
      obtain ⟨ih1, ih2⟩ := ih hn
      have hv : 0 ≤ ((Squash.tick false dt ground options)^[n+1]
          st).velocity.y := by
        rw [ih2]
        push_cast at h ⊢
        linarith
      obtain ⟨s1, s2⟩ := Squash.jumping_hold_tick dt ground options _ ih1 hv
      rw [Function.iterate_succ_apply']
      refine ⟨s1, ?_⟩
      rw [s2, ih2]
      push_cast
      ring

/-- C3, counterexample: in `squash_stretch_jump.rs` the integrator
`apply_velocity` clamps the position to the ground but does not zero the
velocity: a full tick from a `Falling` state just above the ground ends
with the position clamped to the ground and a nonzero (negative)
velocity, still `Falling`. -/
theorem C3_clamp_counterexample :
    (Squash.tick false (16/1000) 0 Options.default
      ⟨.Falling, ⟨0, -100⟩, ⟨0, 1, 0⟩, [], false, 0⟩).translation.y = 0 ∧
    (Squash.tick false (16/1000) 0 Options.default
      ⟨.Falling, ⟨0, -100⟩, ⟨0, 1, 0⟩, [], false, 0⟩).velocity.y ≠ 0 ∧
    (Squash.tick false (16/1000) 0 Options.default
      ⟨.Falling, ⟨0, -100⟩, ⟨0, 1, 0⟩, [], false, 0⟩).movement =
      .Falling := by
  refine ⟨?_, ?_, ?_⟩ <;>
    simp [Squash.tick, Squash.change_movement_state, Squash.apply_gravity,
      Squash.apply_velocity, Squash.tween_player, Squash.set_tweenable,
      Squash.GRAVITY, Squash.PIXELS_PER_METER] <;> norm_num

/-- C3, amended: in `user_input.rs` the integrator `move_player` clamps
the position to exactly the ground, zeroes the velocity and lands on the
same tick; in `squash_stretch_jump.rs` the integrator `apply_velocity`
only clamps the position and leaves the velocity untouched, and the
velocity is zeroed one tick later by `change_movement_state` when it
observes the clamped position. -/
theorem C3_clamp_behaviour :
    (∀ dt ground : ℚ, ∀ st : UserInput.PlayerState,
      st.translation.y + st.velocity.y * dt < ground →
      (UserInput.move_player dt ground st).translation.y = ground ∧
      (UserInput.move_player dt ground st).velocity.y = 0 ∧
      (UserInput.move_player dt ground st).movement = .Idle) ∧
    (∀ dt ground : ℚ, ∀ st : Squash.PlayerState,
      st.translation.y + st.velocity.y * dt < ground →
      (Squash.apply_velocity dt ground st).translation.y = ground ∧
      (Squash.apply_velocity dt ground st).velocity = st.velocity) ∧
    (∀ jump : Bool, ∀ ground : ℚ, ∀ st : Squash.PlayerState,
      st.movement = .Falling → st.translation.y ≤ ground →
      (Squash.change_movement_state jump ground st).velocity.y = 0 ∧
      (Squash.change_movement_state jump ground st).movement = .Idle) := by
  refine ⟨?_, ?_, ?_⟩
  · intro dt ground st h
    obtain ⟨mv, ⟨vx, vy⟩, ⟨tx, ty, tz⟩, an, ch, ins⟩ := st
    simp only at h
    simp [UserInput.move_player, h]
  · intro dt ground st h
    obtain ⟨mv, ⟨vx, vy⟩, ⟨tx, ty, tz⟩, an, ch, ins⟩ := st
    simp only at h
    simp [Squash.apply_velocity, h]
  · intro jump ground st hmv h
    obtain ⟨mv, ⟨vx, vy⟩, ⟨tx, ty, tz⟩, an, ch, ins⟩ := st
    subst hmv
    simp only at h
    simp [Squash.change_movement_state, h]

/-- Witness for C3 (amended) at concrete clamping states. -/
theorem C3_clamp_behaviour_witness :
    ((0:ℚ) + (-100) * 1 < 10 ∧
      (UserInput.move_player 1 10
        ⟨.Falling, ⟨0, -100⟩, ⟨0, 0, 0⟩, [], false, 0⟩).velocity.y = 0) ∧
    ((0:ℚ) + (-100) * 1 < 10 ∧
      (Squash.apply_velocity 1 10
        ⟨.Falling, ⟨0, -100⟩, ⟨0, 0, 0⟩, [], false, 0⟩).translation.y =
        10) ∧
    ((0:ℚ) ≤ 10 ∧
      (Squash.change_movement_state false 10
        ⟨.Falling, ⟨0, -100⟩, ⟨0, 0, 0⟩, [], false, 0⟩).velocity.y = 0) :=
  ⟨⟨by norm_num, (C3_clamp_behaviour.1 1 10
      ⟨.Falling, ⟨0, -100⟩, ⟨0, 0, 0⟩, [], false, 0⟩ (by norm_num)).2.1⟩,
   ⟨by norm_num, (C3_clamp_behaviour.2.1 1 10
      ⟨.Falling, ⟨0, -100⟩, ⟨0, 0, 0⟩, [], false, 0⟩ (by norm_num)).1⟩,
   ⟨by norm_num, (C3_clamp_behaviour.2.2 false 10
      ⟨.Falling, ⟨0, -100⟩, ⟨0, 0, 0⟩, [], false, 0⟩ rfl
      (by norm_num)).1⟩⟩

/-- C4, counterexample: in `squash_stretch_jump.rs`, gravity is applied
unconditionally every tick, so after a single input-free tick from spawn
the player is `Idle` with nonzero (negative) vertical velocity. -/
theorem C4_idle_velocity_counterexample :
    (Squash.run (16/1000) 0 Options.default [false]).movement = .Idle ∧
    (Squash.run (16/1000) 0 Options.default [false]).velocity.y ≠ 0 := by
  constructor <;>
    simp [Squash.run, Squash.tick, Squash.change_movement_state,
      Squash.apply_gravity, Squash.apply_velocity, Squash.tween_player,
      Squash.set_tweenable, Squash.init, Squash.GRAVITY,
      Squash.PIXELS_PER_METER]

/-- C4, amended: in `user_input.rs` the invariant holds: at every
reachable per-tick state, an `Idle` player has vertical velocity exactly
0; in `squash_stretch_jump.rs` it fails (see the counterexample). -/
theorem C4_idle_zero_velocity :
    ∀ dt ground : ℚ, ∀ options inputs,
      (UserInput.run dt ground options inputs).movement = .Idle →
      (UserInput.run dt ground options inputs).velocity.y = 0 :=
  fun dt ground options inputs =>
    (UserInput.Inv_run dt ground options inputs).1

/-- Witness for C4 (amended) at the spawn state. -/
theorem C4_idle_zero_velocity_witness :
    (UserInput.run (16/1000) (-250) Options.default []).movement = .Idle ∧
    (UserInput.run (16/1000) (-250) Options.default []).velocity.y = 0 :=
  ⟨rfl, C4_idle_zero_velocity (16/1000) (-250) Options.default [] rfl⟩

/-- C6, counterexample: in `squash_stretch_jump.rs` the state machine
reads the velocity of the previous tick, so after a jump from spawn
(dt = 16 ms) there is a reachable tick boundary (46 ticks in) where the
velocity is already negative but the state is still `Jumping`; it only
becomes `Falling` one tick later. -/
theorem C6_lag_counterexample :
    ((Squash.tick false (16/1000) (-250) Options.default)^[45]
      (Squash.tick true (16/1000) (-250) Options.default
        (Squash.init (-250)))).movement = .Jumping ∧
    ((Squash.tick false (16/1000) (-250) Options.default)^[45]
      (Squash.tick true (16/1000) (-250) Options.default
        (Squash.init (-250)))).velocity.y < 0 ∧
    ((Squash.tick false (16/1000) (-250) Options.default)^[46]
      (Squash.tick true (16/1000) (-250) Options.default
        (Squash.init (-250)))).movement = .Falling := by
  have h1 : (Squash.tick true (16/1000) (-250) Options.default
      (Squash.init (-250))).movement = .Jumping ∧
      (Squash.tick true (16/1000) (-250) Options.default
        (Squash.init (-250))).velocity.y = 1076 := by
    constructor <;>
      norm_num [Squash.tick, Squash.change_movement_state,
        Squash.apply_gravity, Squash.apply_velocity, Squash.tween_player,
        Squash.set_tweenable, Squash.init, Squash.GRAVITY,
        Squash.PIXELS_PER_METER, Squash.JUMP_VELOCITY]
  have h2 := Squash.jumping_hold_run (16/1000) (-250) Options.default _
    (by norm_num) h1.1 44
    (by rw [h1.2]; norm_num [Squash.GRAVITY, Squash.PIXELS_PER_METER])
  have h45 : (44:ℕ) + 1 = 45 := rfl
  rw [h45] at h2
  have hneg : ((Squash.tick false (16/1000) (-250) Options.default)^[45]
      (Squash.tick true (16/1000) (-250) Options.default
        (Squash.init (-250)))).velocity.y < 0 := by
    rw [h2.2, h1.2]
    norm_num [Squash.GRAVITY, Squash.PIXELS_PER_METER]
  refine ⟨h2.1, hneg, ?_⟩
  have h46 : (46:ℕ) = 45 + 1 := rfl
  rw [h46, Function.iterate_succ_apply']
  exact Squash.tick_fall_step (16/1000) (-250) Options.default _ h2.1 hneg

/-- C6, amended: in `user_input.rs` the gravity system both decrements
the velocity and performs the `Jumping` to `Falling` switch, so the
state becomes `Falling` within the same tick the decremented velocity
goes below zero, and the player remains `Jumping` on every earlier tick;
in `squash_stretch_jump.rs` the state machine runs before gravity and
reads the previous tick's velocity, so it leaves `Jumping` exactly when
the previous tick's velocity was below zero — one tick after the
velocity sign change. -/
theorem C6_fall_transition :
    (∀ dt : ℚ, ∀ st : UserInput.PlayerState, st.movement = .Jumping →
      ((UserInput.apply_gravity dt st).movement = .Falling ↔
        st.velocity.y - 1500 * dt < 0)) ∧
    (∀ dt ground : ℚ, ∀ options : Options, ∀ st : UserInput.PlayerState,
      ∀ n : ℕ, 0 ≤ dt → st.movement = .Jumping →
      ground ≤ st.translation.y →
      0 ≤ st.velocity.y - 1500 * dt * n →
      ((UserInput.tick false dt ground options)^[n] st).movement =
        .Jumping) ∧
    (∀ jump : Bool, ∀ ground : ℚ, ∀ st : Squash.PlayerState,
      st.movement = .Jumping →
      ((Squash.change_movement_state jump ground st).movement = .Falling ↔
        st.velocity.y < 0)) := by
  refine ⟨?_, ?_, ?_⟩
  · intro dt st hmv
    obtain ⟨mv, ⟨vx, vy⟩, ⟨tx, ty, tz⟩, an, ch, ins⟩ := st
    simp only at hmv
    subst hmv
    simp [UserInput.apply_gravity]
    split_ifs <;> simp_all
  · intro dt ground options st n hdt hmv hg hvel
    exact (UserInput.jumping_coast_run dt ground options st hdt hmv hg n
      hvel).1
  · intro jump ground st hmv
    obtain ⟨mv, ⟨vx, vy⟩, ⟨tx, ty, tz⟩, an, ch, ins⟩ := st
    simp only at hmv
    subst hmv
    simp [Squash.change_movement_state]
    split_ifs <;> simp_all

/-- Witness for C6 (amended) at concrete states of both variants. -/
theorem C6_fall_transition_witness :
    ((⟨.Jumping, ⟨0, 10⟩, ⟨0, 0, 0⟩, [], false, 0⟩ :
        UserInput.PlayerState).movement = .Jumping ∧
      ((UserInput.apply_gravity (16/1000)
        ⟨.Jumping, ⟨0, 10⟩, ⟨0, 0, 0⟩, [], false, 0⟩).movement =
          .Falling ↔
        (10:ℚ) - 1500 * (16/1000) < 0)) ∧
    ((⟨.Jumping, ⟨0, -5⟩, ⟨0, 0, 0⟩, [], false, 0⟩ :
        Squash.PlayerState).movement = .Jumping ∧
      ((Squash.change_movement_state false 0
        ⟨.Jumping, ⟨0, -5⟩, ⟨0, 0, 0⟩, [], false, 0⟩).movement =
          .Falling ↔
        (-5:ℚ) < 0)) :=
  ⟨⟨rfl, C6_fall_transition.1 (16/1000)
      ⟨.Jumping, ⟨0, 10⟩, ⟨0, 0, 0⟩, [], false, 0⟩ rfl⟩,
   ⟨rfl, C6_fall_transition.2.2 false 0
      ⟨.Jumping, ⟨0, -5⟩, ⟨0, 0, 0⟩, [], false, 0⟩ rfl⟩⟩

/-- C9: in `user_input.rs` with a fixed 16 ms step, after a jump trigger
on the first tick the velocity is 1000 - 24 = 976 > 0 and the player is
`Jumping`; it remains `Jumping` with nonnegative velocity through 41
further-tick boundaries minus one (ticks 1 to 41), and on tick 42 — the
first tick on which the velocity is below zero — the state becomes
`Falling`. -/
theorem C9_fixed_step_timeline :
    ((UserInput.tick true (16/1000) (-250) Options.default
        (UserInput.init (-250))).movement = .Jumping ∧
      (UserInput.tick true (16/1000) (-250) Options.default
        (UserInput.init (-250))).velocity.y = 976 ∧
      0 < (UserInput.tick true (16/1000) (-250) Options.default
        (UserInput.init (-250))).velocity.y) ∧
    (∀ n : ℕ, n ≤ 40 →
      ((UserInput.tick false (16/1000) (-250) Options.default)^[n]
        (UserInput.tick true (16/1000) (-250) Options.default
          (UserInput.init (-250)))).movement = .Jumping ∧
      0 ≤ ((UserInput.tick false (16/1000) (-250) Options.default)^[n]
        (UserInput.tick true (16/1000) (-250) Options.default
          (UserInput.init (-250)))).velocity.y) ∧
    ((UserInput.tick false (16/1000) (-250) Options.default)^[41]
      (UserInput.tick true (16/1000) (-250) Options.default
        (UserInput.init (-250)))).movement = .Falling ∧
    ((UserInput.tick false (16/1000) (-250) Options.default)^[41]
      (UserInput.tick true (16/1000) (-250) Options.default
        (UserInput.init (-250)))).velocity.y < 0 := by
  have h1 : (UserInput.tick true (16/1000) (-250) Options.default
      (UserInput.init (-250))).movement = .Jumping ∧
      (UserInput.tick true (16/1000) (-250) Options.default
        (UserInput.init (-250))).velocity.y = 976 ∧
      (UserInput.tick true (16/1000) (-250) Options.default
        (UserInput.init (-250))).translation.y = -29298/125 := by
    refine ⟨?_, ?_, ?_⟩ <;>
      norm_num [UserInput.tick, UserInput.take_input,
        UserInput.apply_gravity, UserInput.move_player,
        UserInput.tween_jump_and_fall, UserInput.set_tweenable,
        UserInput.init]
  have hg : (-250:ℚ) ≤ (UserInput.tick true (16/1000) (-250)
      Options.default (UserInput.init (-250))).translation.y := by
    rw [h1.2.2]; norm_num
  have hcoast := UserInput.jumping_coast_run (16/1000) (-250) Options.default
    (UserInput.tick true (16/1000) (-250) Options.default
      (UserInput.init (-250))) (by norm_num) h1.1 hg
  refine ⟨⟨h1.1, h1.2.1, by rw [h1.2.1]; norm_num⟩, ?_, ?_⟩
  · intro n hn
    have hnq : (n:ℚ) ≤ 40 := by exact_mod_cast hn
    have hvel : 0 ≤ (UserInput.tick true (16/1000) (-250) Options.default
        (UserInput.init (-250))).velocity.y - 1500 * (16/1000) * n := by
      rw [h1.2.1]; linarith
    obtain ⟨c1, c2, c3, c4⟩ := hcoast n hvel
    refine ⟨c1, ?_⟩
    rw [c2, h1.2.1]
    linarith
  · have hvel40 : 0 ≤ (UserInput.tick true (16/1000) (-250)
        Options.default (UserInput.init (-250))).velocity.y -
        1500 * (16/1000) * (40:ℕ) := by
      rw [h1.2.1]; norm_num
    obtain ⟨c1, c2, c3, c4⟩ := hcoast 40 hvel40
    have hneg : ((UserInput.tick false (16/1000) (-250)
        Options.default)^[40] (UserInput.tick true (16/1000) (-250)
        Options.default (UserInput.init (-250)))).velocity.y -
        1500 * (16/1000) < 0 := by
      rw [c2, h1.2.1]; norm_num
    have hnc : (-250:ℚ) ≤ ((UserInput.tick false (16/1000) (-250)
        Options.default)^[40] (UserInput.tick true (16/1000) (-250)
        Options.default (UserInput.init (-250)))).translation.y +
        (((UserInput.tick false (16/1000) (-250)
          Options.default)^[40] (UserInput.tick true (16/1000) (-250)
          Options.default (UserInput.init (-250)))).velocity.y -
          1500 * (16/1000)) * (16/1000) := by
      rw [c2, c3, h1.2.1, h1.2.2]; norm_num
    obtain ⟨f1, f2⟩ := UserInput.tick_cross_step (16/1000) (-250)
      Options.default _ c1 hneg hnc
    have h41 : (41:ℕ) = 40 + 1 := rfl
    rw [h41, Function.iterate_succ_apply']
    exact ⟨f1, by rw [f2, c2, h1.2.1]; norm_num⟩

/-- Witness for C9 at the first coasting tick. -/
theorem C9_fixed_step_timeline_witness :
    (0:ℕ) ≤ 40 ∧
    ((UserInput.tick false (16/1000) (-250) Options.default)^[0]
      (UserInput.tick true (16/1000) (-250) Options.default
        (UserInput.init (-250)))).movement = .Jumping :=
  ⟨by norm_num, (C9_fixed_step_timeline.2.1 0 (by norm_num)).1⟩

end BevyTweening
